import Mathlib

/-!
Shallow embedding of the atsomeone bot (src/bot.py), covering the
bulk message-deletion workflow of the slash command delete_pings
and the mention-reply handler on_message.

Time instants are modelled as integers (seconds).  Platform calls
(batch delete, single delete) are modelled by outcome oracles indexed
by the call number within a channel, and every attempted API call is
recorded in a trace.
-/

set_option maxRecDepth 100000

namespace AtSomeone

/-- A point in time, in seconds (sign and origin are arbitrary). -/
abbrev Instant := Int

/-- The timedelta(days=14) from bot.py line 184, in seconds. -/
def fourteenDays : Int := 14 * 86400

/-- fourteen_days_ago = start_time - timedelta(days=14) (bot.py line 184),
computed once per session. -/
def fourteenDaysAgo (startedAt : Instant) : Instant := startedAt - fourteenDays

/-- The two age bands a bot message falls into. -/
inductive Band
  | recent
  | aged
deriving DecidableEq, Repr

/-- Classification of a message against the precomputed boundary:
bot.py line 223, message.created_at > fourteen_days_ago. -/
def classify (createdAt boundary : Instant) : Band :=
  if boundary < createdAt then Band.recent else Band.aged

/-- A message as seen during the history scan. -/
structure Msg where
  id : Nat
  authorId : Nat
  createdAt : Instant
deriving DecidableEq, Repr

/-- Outcome of one channel.delete_messages (batch) call. -/
inductive BatchOutcome
  | ok
  | forbidden
  | httpException
  | otherError
deriving DecidableEq, Repr

/-- Outcome of one message.delete (single) call. -/
inductive SingleOutcome
  | ok
  | forbidden
  | notFound
  | httpException
  | otherError
deriving DecidableEq, Repr

/-- A deletion API call attempted against the platform. -/
inductive ApiCall
  | batchDelete (ids : List Nat)
  | singleDelete (id : Nat)
deriving DecidableEq, Repr

/-- Why a channel was skipped (spec ChannelResult.skippedReason). -/
inductive SkipReason
  | missingPermission
  | accessDenied
  | unexpectedError
deriving DecidableEq, Repr

/-- Outcome for one channel (spec ChannelResult), extended with the
trace of deletion calls attempted in that channel. -/
structure ChannelResult where
  channelId : Nat
  deletedCount : Nat
  failedCount : Nat
  skippedReason : Option SkipReason
  calls : List ApiCall
deriving DecidableEq, Repr

/-- Mutable state of delete_pings while working on one channel:
the two queues (messages_to_delete_bulk / messages_to_delete_single,
bot.py lines 194-195), the per-channel counters (lines 196-197), the
running session-wide counters (lines 181-182), the call indices for the
outcome oracles, and the trace of attempted calls. -/
structure ScanState where
  bulk : List Msg
  single : List Msg
  chDeleted : Nat
  chFailed : Nat
  gDeleted : Nat
  gFailed : Nat
  batchIdx : Nat
  singleIdx : Nat
  calls : List ApiCall
deriving Repr

/-- Fresh per-channel state given the incoming session-wide counters. -/
def initState (gd gf : Nat) : ScanState :=
  { bulk := [], single := [], chDeleted := 0, chFailed := 0,
    gDeleted := gd, gFailed := gf, batchIdx := 0, singleIdx := 0, calls := [] }

/-- Routing of one bot-authored message (bot.py lines 223-226):
recent messages are appended to the bulk queue, aged ones to the
single-delete queue. -/
def route (boundary : Instant) (st : ScanState) (m : Msg) : ScanState :=
  match classify m.createdAt boundary with
  | Band.recent => { st with bulk := st.bulk ++ [m] }
  | Band.aged => { st with single := st.single ++ [m] }

/-- The periodic flush (bot.py lines 229-248): once the bulk queue holds
99 or more messages, attempt channel.delete_messages; on success count
them deleted (session-wide and per-channel) and clear the queue; on
Forbidden, HTTPException or any other exception move the whole batch to
the single-delete queue and clear the bulk queue, counting nothing. -/
def periodicFlush (batchOutcome : Nat → BatchOutcome) (st : ScanState) : ScanState :=
  if 99 ≤ st.bulk.length then
    let st1 := { st with calls := st.calls ++ [ApiCall.batchDelete (st.bulk.map Msg.id)],
                         batchIdx := st.batchIdx + 1 }
    match batchOutcome st.batchIdx with
    | BatchOutcome.ok =>
        { st1 with chDeleted := st1.chDeleted + st.bulk.length,
                   gDeleted := st1.gDeleted + st.bulk.length, bulk := [] }
    | _ => { st1 with single := st1.single ++ st.bulk, bulk := [] }
  else st

/-- One iteration of the history loop (bot.py lines 216-248): messages
not authored by the bot are ignored (line 222); a bot message is routed
by age and then the periodic-flush check runs. -/
def scanStep (botId : Nat) (boundary : Instant) (batchOutcome : Nat → BatchOutcome)
    (st : ScanState) (m : Msg) : ScanState :=
  if m.authorId = botId then periodicFlush batchOutcome (route boundary st m) else st

/-- Fuel-driven worker for chunksOf99; the fuel only has to dominate
the number of chunks, which the list length does. -/
def chunksOf99Go : Nat → List Msg → List (List Msg)
  | _, [] => []
  | 0, _ :: _ => []
  | fuel + 1, x :: xs => (x :: xs).take 99 :: chunksOf99Go fuel ((x :: xs).drop 99)

/-- Splitting the leftover bulk queue into chunks of at most 99
(bot.py line 259, range(0, len, 99) with slices [i:i+99]). -/
def chunksOf99 (l : List Msg) : List (List Msg) := chunksOf99Go l.length l

/-- Final flush of one leftover chunk (bot.py lines 261-276): on success
count the chunk deleted; on Forbidden count the whole chunk failed and
skip it; on HTTPException or any other exception move the chunk to the
single-delete queue. -/
def finalFlushChunk (batchOutcome : Nat → BatchOutcome) (st : ScanState)
    (chunk : List Msg) : ScanState :=
  let st1 := { st with calls := st.calls ++ [ApiCall.batchDelete (chunk.map Msg.id)],
                       batchIdx := st.batchIdx + 1 }
  match batchOutcome st.batchIdx with
  | BatchOutcome.ok =>
      { st1 with chDeleted := st1.chDeleted + chunk.length,
                 gDeleted := st1.gDeleted + chunk.length }
  | BatchOutcome.forbidden =>
      { st1 with chFailed := st1.chFailed + chunk.length,
                 gFailed := st1.gFailed + chunk.length }
  | BatchOutcome.httpException => { st1 with single := st1.single ++ chunk }
  | BatchOutcome.otherError => { st1 with single := st1.single ++ chunk }

/-- The final bulk flush (bot.py lines 257-276): the leftover bulk queue
is processed in chunks of at most 99. -/
def finalFlush (batchOutcome : Nat → BatchOutcome) (st : ScanState) : ScanState :=
  (chunksOf99 st.bulk).foldl (finalFlushChunk batchOutcome) { st with bulk := [] }

/-- One single delete (bot.py lines 281-298): success counts one
deleted; Forbidden, HTTPException and any other exception count one
failed; NotFound counts nothing and processing continues. -/
def singleStep (singleOutcome : Nat → SingleOutcome) (st : ScanState) (m : Msg) : ScanState :=
  let st1 := { st with calls := st.calls ++ [ApiCall.singleDelete m.id],
                       singleIdx := st.singleIdx + 1 }
  match singleOutcome st.singleIdx with
  | SingleOutcome.ok =>
      { st1 with chDeleted := st1.chDeleted + 1, gDeleted := st1.gDeleted + 1 }
  | SingleOutcome.forbidden =>
      { st1 with chFailed := st1.chFailed + 1, gFailed := st1.gFailed + 1 }
  | SingleOutcome.notFound => st1
  | SingleOutcome.httpException =>
      { st1 with chFailed := st1.chFailed + 1, gFailed := st1.gFailed + 1 }
  | SingleOutcome.otherError =>
      { st1 with chFailed := st1.chFailed + 1, gFailed := st1.gFailed + 1 }

/-- The single-delete drain (bot.py lines 280-298). -/
def singlePhase (singleOutcome : Nat → SingleOutcome) (st : ScanState) : ScanState :=
  st.single.foldl (singleStep singleOutcome) { st with single := [] }

/-- An exception escaping to the per-channel handler (bot.py lines
301-306) while iterating history: raised after afterMessages messages
were inspected; isForbidden marks a discord.Forbidden from the history
fetch (line 301) versus any other exception (line 303). -/
structure ChannelAbort where
  afterMessages : Nat
  isForbidden : Bool
deriving DecidableEq, Repr

/-- The environment one channel presents to delete_pings: the two
channel-scoped permissions checked at bot.py lines 208-211, the message
history (newest first, as channel.history yields it), an optional abort
of the history iteration, and the outcome oracles for the platform
deletion calls. -/
structure ChannelEnv where
  id : Nat
  canReadHistory : Bool
  canManageMessages : Bool
  history : List Msg
  abort : Option ChannelAbort
  batchOutcome : Nat → BatchOutcome
  singleOutcome : Nat → SingleOutcome

/-- Package a final ScanState as the channel's result. -/
def resultOf (env : ChannelEnv) (st : ScanState) (reason : Option SkipReason) : ChannelResult :=
  { channelId := env.id, deletedCount := st.chDeleted, failedCount := st.chFailed,
    skippedReason := reason, calls := st.calls }

/-- The normal (no abort) body of one channel: scan at most 5000
messages (bot.py line 216), final bulk flush, then drain the
single-delete queue. -/
def runChannelBody (botId : Nat) (boundary : Instant) (env : ChannelEnv)
    (gd gf : Nat) : ScanState :=
  singlePhase env.singleOutcome
    (finalFlush env.batchOutcome
      ((env.history.take 5000).foldl (scanStep botId boundary env.batchOutcome)
        (initState gd gf)))

/-- Processing of one channel inside delete_pings (bot.py lines
192-309): permission precheck, history scan with periodic flushes,
final flush, single-delete drain; an exception escaping the history
iteration finalizes the channel with whatever counts exist and the
session moves on.  Returns the channel's result together with the
updated session-wide counters. -/
def processChannel (botId : Nat) (boundary : Instant) (gd gf : Nat)
    (env : ChannelEnv) : ChannelResult × Nat × Nat :=
  if env.canReadHistory && env.canManageMessages then
    let inspected := env.history.take 5000
    match env.abort with
    | some a =>
        if a.afterMessages < inspected.length then
          let st := (inspected.take a.afterMessages).foldl
            (scanStep botId boundary env.batchOutcome) (initState gd gf)
          (resultOf env st (some (if a.isForbidden then SkipReason.accessDenied
                                  else SkipReason.unexpectedError)),
           st.gDeleted, st.gFailed)
        else
          let st := runChannelBody botId boundary env gd gf
          (resultOf env st none, st.gDeleted, st.gFailed)
    | none =>
        let st := runChannelBody botId boundary env gd gf
        (resultOf env st none, st.gDeleted, st.gFailed)
  else
    ({ channelId := env.id, deletedCount := 0, failedCount := 0,
       skippedReason := some SkipReason.missingPermission, calls := [] }, gd, gf)

/-- One whole invocation of delete_pings over a server. -/
structure SessionEnv where
  startedAt : Instant
  endedAt : Instant
  botId : Nat
  channels : List ChannelEnv

/-- The final report sent at bot.py line 315. -/
structure Summary where
  deleted : Nat
  failed : Nat
  duration : Int
deriving DecidableEq, Repr

/-- The observable outcome of one delete_pings invocation. -/
structure SessionResult where
  totalDeleted : Nat
  totalFailed : Nat
  results : List ChannelResult
  summary : Summary

/-- The channel loop of delete_pings, threading the session-wide
counters, with the age boundary passed in from outside the loop. -/
def sessionStep (botId : Nat) (boundary : Instant)
    (acc : List ChannelResult × Nat × Nat) (c : ChannelEnv) :
    List ChannelResult × Nat × Nat :=
  let r := processChannel botId boundary acc.2.1 acc.2.2 c
  (acc.1 ++ [r.1], r.2.1, r.2.2)

/-- delete_pings with the classification boundary as an explicit
parameter; deletePings instantiates it once from the session start. -/
def deletePingsWith (boundary : Instant) (env : SessionEnv) : SessionResult :=
  let folded := env.channels.foldl (sessionStep env.botId boundary) ([], 0, 0)
  { totalDeleted := folded.2.1, totalFailed := folded.2.2, results := folded.1,
    summary := { deleted := folded.2.1, failed := folded.2.2,
                 duration := env.endedAt - env.startedAt } }

/-- The delete_pings command (bot.py lines 180-315): the 14-day boundary
is computed once from the session start (line 184) and used for every
channel and message. -/
def deletePings (env : SessionEnv) : SessionResult :=
  deletePingsWith (fourteenDaysAgo env.startedAt) env

/-- Presence status of a member (discord.Status values the handler can
observe). -/
inductive Status
  | online
  | idle
  | dnd
  | offline
  | invisible
deriving DecidableEq, Repr

/-- A channel member as the mention handler sees it. -/
structure Member where
  id : Nat
  isBot : Bool
  status : Status
deriving DecidableEq, Repr

/-- An incoming message as the on_message handler sees it
(bot.py lines 104-129). -/
structure IncomingMsg where
  authorId : Nat
  authorIsBot : Bool
  mentionsBot : Bool
  isGuildTextChannel : Bool
  channelMembers : List Member
deriving Repr

/-- The eligibility filter of on_message (bot.py lines 123-129): not a
bot, not the author, and status in the explicit list
online, idle, dnd, offline. -/
def eligibleMembers (authorId : Nat) (members : List Member) : List Member :=
  members.filter fun m =>
    !m.isBot && m.id != authorId &&
      (m.status == Status.online || m.status == Status.idle ||
       m.status == Status.dnd || m.status == Status.offline)

/-- The ping target chosen by on_message (bot.py lines 104-143):
none when the author is a bot, the bot is not mentioned, the message is
not in a guild text channel, or no member is eligible; otherwise
random.choice over the eligible members, modelled by an arbitrary
index choice reduced modulo the list length. -/
def onMessage (msg : IncomingMsg) (choice : Nat) : Option Member :=
  if msg.authorIsBot then none
  else if !msg.mentionsBot then none
  else if !msg.isGuildTextChannel then none
  else
    let el := eligibleMembers msg.authorId msg.channelMembers
    el.get? (choice % el.length)

/-- Sizes of the batch-delete calls in a trace. -/
def batchSizes (calls : List ApiCall) : List Nat :=
  calls.filterMap fun c =>
    match c with
    | ApiCall.batchDelete ids => some ids.length
    | ApiCall.singleDelete _ => none

/-- Number of single-delete calls in a trace. -/
def singleCount (calls : List ApiCall) : Nat :=
  calls.countP fun c =>
    match c with
    | ApiCall.batchDelete _ => false
    | ApiCall.singleDelete _ => true

/-- Scenario channel for the 150-recent-messages test: 150 bot messages
created one hour before session start, every platform call succeeding. -/
def scenario150 : ChannelEnv :=
  { id := 10, canReadHistory := true, canManageMessages := true,
    history := (List.range 150).map fun i => { id := i, authorId := 7, createdAt := -3600 },
    abort := none,
    batchOutcome := fun _ => BatchOutcome.ok,
    singleOutcome := fun _ => SingleOutcome.ok }

/-- Channel whose only flush is a final one and whose batch call is
rejected with a permission denial, every single call succeeding. -/
def finalForbiddenEnv : ChannelEnv :=
  { id := 11, canReadHistory := true, canManageMessages := true,
    history := [{ id := 1, authorId := 7, createdAt := -3600 }],
    abort := none,
    batchOutcome := fun _ => BatchOutcome.forbidden,
    singleOutcome := fun _ => SingleOutcome.ok }

/-- The two session-wide counters stay coupled to the per-channel
counters: every increment of one is matched by the other. -/
def Coupled (gd gf : Nat) (st : ScanState) : Prop :=
  st.gDeleted = gd + st.chDeleted ∧ st.gFailed = gf + st.chFailed

/-- Accounting measure for one channel: messages already counted plus
messages still queued.  Each inspected bot message raises it by exactly
one, and no later phase raises it, so deleted + failed never exceeds the
number of inspected bot messages. -/
def pending (st : ScanState) : Nat :=
  st.chDeleted + st.chFailed + st.bulk.length + st.single.length

/-- Buffer invariant of the history scan: the bulk queue is strictly
below the 99-message capacity between steps, and every batch call
recorded so far carried at most 99 messages. -/
def BufInv (st : ScanState) : Prop :=
  st.bulk.length < 99 ∧ ∀ s ∈ batchSizes st.calls, s ≤ 99

/-- A scan state mid-channel whose bulk queue has just reached the
99-message capacity. -/
def fullBulkState : ScanState :=
  { initState 0 0 with
      bulk := (List.range 99).map fun i => { id := i, authorId := 7, createdAt := -3600 } }

/-- Channel in which the bot lacks the view-history permission. -/
def noPermEnv : ChannelEnv :=
  { id := 5, canReadHistory := false, canManageMessages := true,
    history := [{ id := 1, authorId := 7, createdAt := -3600 }],
    abort := none,
    batchOutcome := fun _ => BatchOutcome.ok,
    singleOutcome := fun _ => SingleOutcome.ok }

/-- Channel whose history iteration raises an unexpected exception
after one message. -/
def abortEnv : ChannelEnv :=
  { id := 6, canReadHistory := true, canManageMessages := true,
    history := [{ id := 1, authorId := 7, createdAt := -3600 },
                { id := 2, authorId := 7, createdAt := -3600 },
                { id := 3, authorId := 7, createdAt := -3600 }],
    abort := some { afterMessages := 1, isForbidden := false },
    batchOutcome := fun _ => BatchOutcome.ok,
    singleOutcome := fun _ => SingleOutcome.ok }

/-- A session over the aborting channel. -/
def abortSession : SessionEnv :=
  { startedAt := 0, endedAt := 30, botId := 7, channels := [abortEnv] }

/-- An offline, non-bot channel member. -/
def offlineMember : Member := { id := 2, isBot := false, status := Status.offline }

/-- A mention of the bot in a guild text channel whose only other
member is offline. -/
def mentionWithOfflineMember : IncomingMsg :=
  { authorId := 1, authorIsBot := false, mentionsBot := true,
    isGuildTextChannel := true, channelMembers := [offlineMember] }

/-- An online, non-bot channel member. -/
def onlineMember : Member := { id := 3, isBot := false, status := Status.online }

/-- A mention of the bot in a guild text channel whose only other
member is online. -/
def mentionWithOnlineMember : IncomingMsg :=
  { authorId := 1, authorIsBot := false, mentionsBot := true,
    isGuildTextChannel := true, channelMembers := [onlineMember] }

/-! ## Helper lemmas -/

theorem foldl_preserve {α β : Type _} (P : β → Prop) (f : β → α → β)
    (hf : ∀ b a, P b → P (f b a)) :
    ∀ (l : List α) (b : β), P b → P (l.foldl f b)
  | [], _, hb => hb
  | a :: l, b, hb => foldl_preserve P f hf l (f b a) (hf b a hb)

theorem coupled_route (gd gf : Nat) (boundary : Instant) (st : ScanState) (m : Msg)
    (h : Coupled gd gf st) : Coupled gd gf (route boundary st m) := by
  unfold route
  cases classify m.createdAt boundary <;> exact h

theorem coupled_periodicFlush (gd gf : Nat) (f : Nat → BatchOutcome) (st : ScanState)
    (h : Coupled gd gf st) : Coupled gd gf (periodicFlush f st) := by
  obtain ⟨h1, h2⟩ := h
  unfold periodicFlush
  split
  · cases f st.batchIdx <;> refine ⟨?_, ?_⟩ <;> (simp [h1, h2]; try omega)
  · exact ⟨h1, h2⟩

theorem coupled_scanStep (gd gf : Nat) (b : Nat) (bd : Instant) (f : Nat → BatchOutcome)
    (st : ScanState) (m : Msg) (h : Coupled gd gf st) :
    Coupled gd gf (scanStep b bd f st m) := by
  unfold scanStep
  split
  · exact coupled_periodicFlush gd gf f _ (coupled_route gd gf bd st m h)
  · exact h

theorem coupled_finalFlushChunk (gd gf : Nat) (f : Nat → BatchOutcome) (st : ScanState)
    (c : List Msg) (h : Coupled gd gf st) : Coupled gd gf (finalFlushChunk f st c) := by
  obtain ⟨h1, h2⟩ := h
  unfold finalFlushChunk
  cases f st.batchIdx <;> refine ⟨?_, ?_⟩ <;> (simp [h1, h2]; try omega)

theorem coupled_finalFlush (gd gf : Nat) (f : Nat → BatchOutcome) (st : ScanState)
    (h : Coupled gd gf st) : Coupled gd gf (finalFlush f st) := by
  unfold finalFlush
  exact foldl_preserve (Coupled gd gf) (finalFlushChunk f)
    (fun s c hs => coupled_finalFlushChunk gd gf f s c hs) _ _ h

theorem coupled_singleStep (gd gf : Nat) (g : Nat → SingleOutcome) (st : ScanState)
    (m : Msg) (h : Coupled gd gf st) : Coupled gd gf (singleStep g st m) := by
  obtain ⟨h1, h2⟩ := h
  unfold singleStep
  cases g st.singleIdx <;> refine ⟨?_, ?_⟩ <;> (simp [h1, h2]; try omega)

theorem coupled_singlePhase (gd gf : Nat) (g : Nat → SingleOutcome) (st : ScanState)
    (h : Coupled gd gf st) : Coupled gd gf (singlePhase g st) := by
  unfold singlePhase
  exact foldl_preserve (Coupled gd gf) (singleStep g)
    (fun s m hs => coupled_singleStep gd gf g s m hs) _ _ h

theorem coupled_initState (gd gf : Nat) : Coupled gd gf (initState gd gf) :=
  ⟨rfl, rfl⟩

theorem coupled_scanFold (gd gf : Nat) (b : Nat) (bd : Instant) (f : Nat → BatchOutcome)
    (l : List Msg) : Coupled gd gf (l.foldl (scanStep b bd f) (initState gd gf)) :=
  foldl_preserve (Coupled gd gf) (scanStep b bd f)
    (fun s m hs => coupled_scanStep gd gf b bd f s m hs) l _ (coupled_initState gd gf)

theorem coupled_runChannelBody (gd gf : Nat) (b : Nat) (bd : Instant) (env : ChannelEnv) :
    Coupled gd gf (runChannelBody b bd env gd gf) :=
  coupled_singlePhase gd gf env.singleOutcome _
    (coupled_finalFlush gd gf env.batchOutcome _ (coupled_scanFold gd gf b bd _ _))

theorem processChannel_delta (b : Nat) (bd : Instant) (gd gf : Nat) (env : ChannelEnv) :
    (processChannel b bd gd gf env).2.1
        = gd + (processChannel b bd gd gf env).1.deletedCount ∧
    (processChannel b bd gd gf env).2.2
        = gf + (processChannel b bd gd gf env).1.failedCount := by
  unfold processChannel
  by_cases hp : (env.canReadHistory && env.canManageMessages) = true
  · rw [if_pos hp]
    split
    all_goals dsimp only
    all_goals try split
    all_goals
      first
        | exact coupled_scanFold gd gf b bd env.batchOutcome _
        | exact coupled_runChannelBody gd gf b bd env
  · rw [if_neg hp]
    exact ⟨by simp [resultOf], by simp [resultOf]⟩

theorem sessionStep_preserve (b : Nat) (bd : Instant)
    (acc : List ChannelResult × Nat × Nat) (c : ChannelEnv)
    (h : acc.2.1 + acc.2.2 = ((acc.1.map fun r => r.deletedCount + r.failedCount)).sum) :
    (sessionStep b bd acc c).2.1 + (sessionStep b bd acc c).2.2
      = (((sessionStep b bd acc c).1.map fun r => r.deletedCount + r.failedCount)).sum := by
  obtain ⟨hd, hf⟩ := processChannel_delta b bd acc.2.1 acc.2.2 c
  unfold sessionStep
  simp only [List.map_append, List.sum_append, List.map_cons, List.map_nil,
    List.sum_cons, List.sum_nil, hd, hf]
  omega

theorem sessionFold_length (b : Nat) (bd : Instant) :
    ∀ (cs : List ChannelEnv) (acc : List ChannelResult × Nat × Nat),
      (cs.foldl (sessionStep b bd) acc).1.length = acc.1.length + cs.length
  | [], _ => rfl
  | c :: cs, acc => by
      rw [List.foldl_cons, sessionFold_length b bd cs]
      simp only [sessionStep, List.length_append, List.length_cons, List.length_nil]
      omega

theorem deletePings_results_length (senv : SessionEnv) :
    (deletePings senv).results.length = senv.channels.length := by
  unfold deletePings deletePingsWith
  simpa using sessionFold_length senv.botId (fourteenDaysAgo senv.startedAt)
    senv.channels ([], 0, 0)

theorem singleFold_calls_length (g : Nat → SingleOutcome) :
    ∀ (msgs : List Msg) (st : ScanState),
      (msgs.foldl (singleStep g) st).calls.length = st.calls.length + msgs.length
  | [], _ => rfl
  | m :: msgs, st => by
      rw [List.foldl_cons, singleFold_calls_length g msgs]
      have hone : (singleStep g st m).calls.length = st.calls.length + 1 := by
        unfold singleStep
        cases g st.singleIdx <;> simp
      simp only [List.length_cons]
      omega

theorem singleFold_allOk (g : Nat → SingleOutcome) (hg : ∀ n, g n = SingleOutcome.ok) :
    ∀ (msgs : List Msg) (st : ScanState),
      (msgs.foldl (singleStep g) st).chDeleted = st.chDeleted + msgs.length
      ∧ (msgs.foldl (singleStep g) st).chFailed = st.chFailed
  | [], _ => ⟨rfl, rfl⟩
  | m :: msgs, st => by
      rw [List.foldl_cons]
      obtain ⟨h1, h2⟩ := singleFold_allOk g hg msgs (singleStep g st m)
      have hs : (singleStep g st m).chDeleted = st.chDeleted + 1
          ∧ (singleStep g st m).chFailed = st.chFailed := by
        unfold singleStep
        rw [hg st.singleIdx]
        exact ⟨rfl, rfl⟩
      rw [h1, h2, hs.1, hs.2]
      exact ⟨by simp; omega, rfl⟩

/-! ## Claim theorems -/

/-- C1: every message inspected during a deletion session is classified
against the boundary sessionStart minus 14 days: strictly newer messages
are recent (batch deletion), all others including one exactly 14 days
old are aged (single deletion); route sends a bot message to the bulk
queue exactly when it is recent and to the single queue exactly when it
is aged; and deletePings computes the boundary once from the session
start and uses that same boundary for the whole session. -/
theorem C1_classification (startedAt : Instant) :
    (∀ createdAt : Instant,
        classify createdAt (fourteenDaysAgo startedAt) = Band.recent
          ↔ startedAt - fourteenDays < createdAt)
    ∧ classify (startedAt - fourteenDays) (fourteenDaysAgo startedAt) = Band.aged
    ∧ (∀ (st : ScanState) (m : Msg),
        (route (fourteenDaysAgo startedAt) st m).bulk = st.bulk ++ [m]
          ↔ classify m.createdAt (fourteenDaysAgo startedAt) = Band.recent)
    ∧ (∀ (st : ScanState) (m : Msg),
        (route (fourteenDaysAgo startedAt) st m).single = st.single ++ [m]
          ↔ classify m.createdAt (fourteenDaysAgo startedAt) = Band.aged)
    ∧ ∀ senv : SessionEnv,
        deletePings senv = deletePingsWith (fourteenDaysAgo senv.startedAt) senv := by
  refine ⟨?_, ?_, ?_, ?_, fun _ => rfl⟩
  · intro createdAt
    unfold classify fourteenDaysAgo
    by_cases h : startedAt - fourteenDays < createdAt
    · simp [h]
    · simp [h]
  · unfold classify fourteenDaysAgo
    simp
  · intro st m
    unfold route
    cases hc : classify m.createdAt (fourteenDaysAgo startedAt) <;> simp
  · intro st m
    unfold route
    cases hc : classify m.createdAt (fourteenDaysAgo startedAt) <;> simp

/-- C3: after a session completes, totalDeleted + totalFailed equals
the sum over all processed channels of deletedCount + failedCount, and
per channel the session-wide counters advance by exactly the channel's
own counts (each increment of one is matched by the other). -/
theorem C3_counter_coupling (env : SessionEnv) :
    ((deletePings env).totalDeleted + (deletePings env).totalFailed
      = (((deletePings env).results.map fun r => r.deletedCount + r.failedCount)).sum)
    ∧ ∀ (b : Nat) (bd : Instant) (gd gf : Nat) (cenv : ChannelEnv),
        (processChannel b bd gd gf cenv).2.1
            = gd + (processChannel b bd gd gf cenv).1.deletedCount
        ∧ (processChannel b bd gd gf cenv).2.2
            = gf + (processChannel b bd gd gf cenv).1.failedCount := by
  constructor
  · unfold deletePings deletePingsWith
    exact foldl_preserve
      (fun acc => acc.2.1 + acc.2.2
        = ((acc.1.map fun r => r.deletedCount + r.failedCount)).sum)
      (sessionStep env.botId (fourteenDaysAgo env.startedAt))
      (fun acc c h => sessionStep_preserve _ _ acc c h)
      env.channels ([], 0, 0) rfl
  · exact fun b bd gd gf cenv => processChannel_delta b bd gd gf cenv

/-- C7: a channel holding exactly 150 bot messages created one hour
before session start, with no deletion errors, produces exactly two
batch-delete calls of sizes 99 and 51, no single-delete call, 150
deleted and 0 failed. -/
theorem C7_scenario150 :
    batchSizes (processChannel 7 (fourteenDaysAgo 0) 0 0 scenario150).1.calls = [99, 51]
    ∧ singleCount (processChannel 7 (fourteenDaysAgo 0) 0 0 scenario150).1.calls = 0
    ∧ (processChannel 7 (fourteenDaysAgo 0) 0 0 scenario150).1.deletedCount = 150
    ∧ (processChannel 7 (fourteenDaysAgo 0) 0 0 scenario150).1.failedCount = 0 := by
  decide

/-- C8: an unexpected error (or a history-access denial) while
processing one channel is contained at the channel boundary: the
channel finalizes with the partial counts accumulated up to that point
and the appropriate skip reason, every channel of the session still
yields a result, and the caller always receives a final summary whose
deleted and failed counts and elapsed duration are those of the
session. -/
theorem C8_channel_error_containment (senv : SessionEnv) :
    (deletePings senv).results.length = senv.channels.length
    ∧ (deletePings senv).summary.deleted = (deletePings senv).totalDeleted
    ∧ (deletePings senv).summary.failed = (deletePings senv).totalFailed
    ∧ (deletePings senv).summary.duration = senv.endedAt - senv.startedAt
    ∧ ∀ (b : Nat) (bd : Instant) (gd gf : Nat) (env : ChannelEnv) (a : ChannelAbort),
        env.abort = some a →
        (env.canReadHistory && env.canManageMessages) = true →
        a.afterMessages < (env.history.take 5000).length →
        (processChannel b bd gd gf env).1.deletedCount
            = (((env.history.take 5000).take a.afterMessages).foldl
                (scanStep b bd env.batchOutcome) (initState gd gf)).chDeleted
        ∧ (processChannel b bd gd gf env).1.failedCount
            = (((env.history.take 5000).take a.afterMessages).foldl
                (scanStep b bd env.batchOutcome) (initState gd gf)).chFailed
        ∧ (processChannel b bd gd gf env).1.skippedReason
            = some (if a.isForbidden then SkipReason.accessDenied
                    else SkipReason.unexpectedError) := by
  refine ⟨deletePings_results_length senv, rfl, rfl, rfl, ?_⟩
  intro b bd gd gf env a ha hp hlt
  unfold processChannel
  rw [if_pos hp, ha]
  dsimp only
  rw [if_pos hlt]
  exact ⟨rfl, rfl, rfl⟩

/-- C5: a channel in which the bot lacks the channel-scoped
read-message-history or manage-messages permission is skipped with zero
deleted, zero failed, skippedReason missing-permission and an empty
call trace (no deletion call is attempted), leaving the session-wide
counters untouched; and the session still produces a result for every
channel. -/
theorem C5_missing_permission_skip (b : Nat) (bd : Instant) (gd gf : Nat)
    (env : ChannelEnv)
    (h : env.canReadHistory = false ∨ env.canManageMessages = false) :
    processChannel b bd gd gf env
      = ({ channelId := env.id, deletedCount := 0, failedCount := 0,
           skippedReason := some SkipReason.missingPermission, calls := [] }, gd, gf)
    ∧ ∀ senv : SessionEnv, (deletePings senv).results.length = senv.channels.length := by
  refine ⟨?_, fun senv => deletePings_results_length senv⟩
  unfold processChannel
  have hp : (env.canReadHistory && env.canManageMessages) = false := by
    rcases h with h | h <;> simp [h]
  rw [hp]
  simp

/-- C6: a single-delete attempt that fails with not-found increments
neither the per-channel nor the session-wide counters; the call was
still attempted, and the drain keeps attempting every queued message
regardless of outcomes. -/
theorem C6_notFound_not_counted (g : Nat → SingleOutcome) (st : ScanState) (m : Msg)
    (h : g st.singleIdx = SingleOutcome.notFound) :
    (singleStep g st m).chDeleted = st.chDeleted
    ∧ (singleStep g st m).chFailed = st.chFailed
    ∧ (singleStep g st m).gDeleted = st.gDeleted
    ∧ (singleStep g st m).gFailed = st.gFailed
    ∧ (singleStep g st m).calls = st.calls ++ [ApiCall.singleDelete m.id]
    ∧ ∀ (msgs : List Msg) (st2 : ScanState),
        (msgs.foldl (singleStep g) st2).calls.length = st2.calls.length + msgs.length := by
  unfold singleStep
  rw [h]
  exact ⟨rfl, rfl, rfl, rfl, rfl, fun msgs st2 => singleFold_calls_length g msgs st2⟩

theorem C6_witness :
    (singleStep (fun _ => SingleOutcome.notFound) (initState 0 0)
        { id := 9, authorId := 7, createdAt := 0 }).chDeleted = (initState 0 0).chDeleted
    ∧ (singleStep (fun _ => SingleOutcome.notFound) (initState 0 0)
        { id := 9, authorId := 7, createdAt := 0 }).chFailed = (initState 0 0).chFailed :=
  ⟨(C6_notFound_not_counted (fun _ => SingleOutcome.notFound) (initState 0 0)
      { id := 9, authorId := 7, createdAt := 0 } rfl).1,
   (C6_notFound_not_counted (fun _ => SingleOutcome.notFound) (initState 0 0)
      { id := 9, authorId := 7, createdAt := 0 } rfl).2.1⟩

/-- C2 as stated is false: in a channel whose single remaining recent
message reaches the final batch flush and that flush is rejected with a
permission denial, the message is counted failed and never re-routed to
single delete, even though every single-delete call would have
succeeded. -/
theorem C2_counterexample :
    (processChannel 7 (fourteenDaysAgo 0) 0 0 finalForbiddenEnv).1.deletedCount = 0
    ∧ (processChannel 7 (fourteenDaysAgo 0) 0 0 finalForbiddenEnv).1.failedCount = 1
    ∧ singleCount (processChannel 7 (fourteenDaysAgo 0) 0 0 finalForbiddenEnv).1.calls = 0
    ∧ ∀ n, finalForbiddenEnv.singleOutcome n = SingleOutcome.ok :=
  ⟨by decide, by decide, by decide, fun _ => rfl⟩

/-- C2 amended: every mid-scan batch-flush failure (permission denial,
transient or unexpected error) re-routes the whole batch into the
single-delete queue without touching the counters, and a transient
platform error on a final-flush chunk re-routes that chunk likewise;
but a permission denial on a final-flush chunk counts the whole chunk
as failed and does not re-route it.  Re-routed messages are, absent
further errors, each deleted and counted via single delete. -/
theorem C2_reroute_amended :
    (∀ (f : Nat → BatchOutcome) (st : ScanState),
        f st.batchIdx ≠ BatchOutcome.ok → 99 ≤ st.bulk.length →
        (periodicFlush f st).single = st.single ++ st.bulk
        ∧ (periodicFlush f st).bulk = []
        ∧ (periodicFlush f st).chDeleted = st.chDeleted
        ∧ (periodicFlush f st).chFailed = st.chFailed)
    ∧ (∀ (f : Nat → BatchOutcome) (st : ScanState) (c : List Msg),
        f st.batchIdx = BatchOutcome.httpException ∨ f st.batchIdx = BatchOutcome.otherError →
        (finalFlushChunk f st c).single = st.single ++ c
        ∧ (finalFlushChunk f st c).chDeleted = st.chDeleted
        ∧ (finalFlushChunk f st c).chFailed = st.chFailed)
    ∧ (∀ (f : Nat → BatchOutcome) (st : ScanState) (c : List Msg),
        f st.batchIdx = BatchOutcome.forbidden →
        (finalFlushChunk f st c).single = st.single
        ∧ (finalFlushChunk f st c).chFailed = st.chFailed + c.length)
    ∧ ∀ (g : Nat → SingleOutcome) (st : ScanState),
        (∀ n, g n = SingleOutcome.ok) →
        (singlePhase g st).chDeleted = st.chDeleted + st.single.length
        ∧ (singlePhase g st).chFailed = st.chFailed := by
  refine ⟨?_, ?_, ?_, ?_⟩
  · intro f st hne h99
    unfold periodicFlush
    rw [if_pos h99]
    cases hf : f st.batchIdx
    · exact absurd hf hne
    all_goals exact ⟨rfl, rfl, rfl, rfl⟩
  · intro f st c h
    unfold finalFlushChunk
    rcases h with h | h <;> rw [h] <;> exact ⟨rfl, rfl, rfl⟩
  · intro f st c h
    unfold finalFlushChunk
    rw [h]
    exact ⟨rfl, rfl⟩
  · intro g st hg
    unfold singlePhase
    exact singleFold_allOk g hg st.single { st with single := [] }

theorem C2_amended_witness :
    (periodicFlush (fun _ => BatchOutcome.forbidden) fullBulkState).single
        = fullBulkState.single ++ fullBulkState.bulk
    ∧ (periodicFlush (fun _ => BatchOutcome.forbidden) fullBulkState).bulk = [] := by
  have h := C2_reroute_amended.1 (fun _ => BatchOutcome.forbidden) fullBulkState
    (by decide) (by decide)
  exact ⟨h.1, h.2.1⟩

theorem C8_witness :
    (deletePings abortSession).results.length = abortSession.channels.length
    ∧ (processChannel 7 (fourteenDaysAgo 0) 0 0 abortEnv).1.skippedReason
        = some SkipReason.unexpectedError := by
  refine ⟨(C8_channel_error_containment abortSession).1, ?_⟩
  have h := (C8_channel_error_containment abortSession).2.2.2.2 7 (fourteenDaysAgo 0) 0 0
    abortEnv { afterMessages := 1, isForbidden := false } rfl rfl (by decide)
  exact h.2.2

theorem C5_witness :
    processChannel 7 (fourteenDaysAgo 0) 0 0 noPermEnv
      = ({ channelId := 5, deletedCount := 0, failedCount := 0,
           skippedReason := some SkipReason.missingPermission, calls := [] }, 0, 0) :=
  (C5_missing_permission_skip 7 (fourteenDaysAgo 0) 0 0 noPermEnv (Or.inl rfl)).1

/-- C9 as stated is false: the eligibility filter of the mention
handler explicitly includes offline members, so a member whose presence
status is offline can be (and here is) selected as the ping target. -/
theorem C9_counterexample :
    onMessage mentionWithOfflineMember 0 = some offlineMember
    ∧ offlineMember.isBot = false
    ∧ offlineMember.id ≠ mentionWithOfflineMember.authorId
    ∧ offlineMember.status = Status.offline
    ∧ Status.offline ≠ Status.online :=
  ⟨by decide, rfl, by decide, rfl, by decide⟩

/-- C9 amended: when the bot is mentioned in a guild text channel it
pings one member chosen at random from the eligible members, where
eligible means a non-bot member other than the author whose status is
in the explicit list online, idle, dnd or offline (offline members are
eligible); every selected target satisfies this, and every eligible
member is selectable by some random draw. -/
theorem C9_eligible_target (msg : IncomingMsg) (choice : Nat) (m : Member)
    (h : onMessage msg choice = some m) :
    m ∈ msg.channelMembers
    ∧ m.isBot = false
    ∧ m.id ≠ msg.authorId
    ∧ (m.status = Status.online ∨ m.status = Status.idle
       ∨ m.status = Status.dnd ∨ m.status = Status.offline)
    ∧ ∀ m2 ∈ eligibleMembers msg.authorId msg.channelMembers,
        ∃ c, onMessage msg c = some m2 := by
  unfold onMessage at h
  by_cases hb : msg.authorIsBot = true
  · rw [if_pos hb] at h
    simp at h
  · rw [if_neg hb] at h
    by_cases hmn : (!msg.mentionsBot) = true
    · rw [if_pos hmn] at h
      simp at h
    · rw [if_neg hmn] at h
      by_cases hg : (!msg.isGuildTextChannel) = true
      · rw [if_pos hg] at h
        simp at h
      · rw [if_neg hg] at h
        dsimp only at h
        have hm : m ∈ eligibleMembers msg.authorId msg.channelMembers :=
          List.get?_mem h
        unfold eligibleMembers at hm
        have hmem := (List.mem_filter.mp hm).1
        have hp := (List.mem_filter.mp hm).2
        simp only [Bool.and_eq_true, Bool.or_eq_true, beq_iff_eq, bne_iff_ne,
          Bool.not_eq_true'] at hp
        obtain ⟨⟨hbot, hne⟩, hstat⟩ := hp
        refine ⟨hmem, hbot, hne, by tauto, ?_⟩
        intro m2 hm2
        obtain ⟨i, hi⟩ := List.get_of_mem hm2
        refine ⟨i.1, ?_⟩
        unfold onMessage
        rw [if_neg hb, if_neg hmn, if_neg hg]
        dsimp only
        rw [Nat.mod_eq_of_lt i.2, ← hi]
        exact List.get?_eq_get i.2

theorem C9_witness :
    onlineMember ∈ mentionWithOnlineMember.channelMembers
    ∧ onlineMember.isBot = false
    ∧ onlineMember.id ≠ mentionWithOnlineMember.authorId
    ∧ (onlineMember.status = Status.online ∨ onlineMember.status = Status.idle
       ∨ onlineMember.status = Status.dnd ∨ onlineMember.status = Status.offline)
    ∧ ∀ m2 ∈ eligibleMembers mentionWithOnlineMember.authorId
          mentionWithOnlineMember.channelMembers,
        ∃ c, onMessage mentionWithOnlineMember c = some m2 :=
  C9_eligible_target mentionWithOnlineMember 0 onlineMember (by decide)

theorem batchSizes_append_batch (calls : List ApiCall) (ids : List Nat) :
    batchSizes (calls ++ [ApiCall.batchDelete ids]) = batchSizes calls ++ [ids.length] := by
  simp [batchSizes, List.filterMap_append]

theorem batchSizes_append_single (calls : List ApiCall) (i : Nat) :
    batchSizes (calls ++ [ApiCall.singleDelete i]) = batchSizes calls := by
  simp [batchSizes, List.filterMap_append]

theorem route_calls (bd : Instant) (st : ScanState) (m : Msg) :
    (route bd st m).calls = st.calls := by
  unfold route
  cases classify m.createdAt bd <;> rfl

theorem route_bulk_le (bd : Instant) (st : ScanState) (m : Msg) :
    (route bd st m).bulk.length ≤ st.bulk.length + 1 := by
  unfold route
  cases classify m.createdAt bd <;> simp

theorem periodicFlush_bulk_lt (f : Nat → BatchOutcome) (st : ScanState)
    (h : st.bulk.length ≤ 99) : (periodicFlush f st).bulk.length < 99 := by
  unfold periodicFlush
  split
  · cases f st.batchIdx <;> simp
  · omega

theorem scanStep_bulk_lt (b : Nat) (bd : Instant) (f : Nat → BatchOutcome)
    (st : ScanState) (m : Msg) (h : st.bulk.length < 99) :
    (scanStep b bd f st m).bulk.length < 99 := by
  unfold scanStep
  split
  · refine periodicFlush_bulk_lt f _ ?_
    have := route_bulk_le bd st m
    omega
  · exact h

theorem periodicFlush_bufInv (f : Nat → BatchOutcome) (st : ScanState)
    (hb : st.bulk.length ≤ 99) (hc : ∀ s ∈ batchSizes st.calls, s ≤ 99) :
    BufInv (periodicFlush f st) := by
  unfold periodicFlush
  split
  · have hcalls : ∀ s ∈ batchSizes
        (st.calls ++ [ApiCall.batchDelete (st.bulk.map Msg.id)]), s ≤ 99 := by
      intro s hs
      rw [batchSizes_append_batch] at hs
      rcases List.mem_append.mp hs with h | h
      · exact hc s h
      · rw [List.mem_singleton] at h
        subst h
        simpa using hb
    constructor
    · split <;> simp
    · split <;> exact hcalls
  · exact ⟨by omega, hc⟩

theorem scanStep_bufInv (b : Nat) (bd : Instant) (f : Nat → BatchOutcome)
    (st : ScanState) (m : Msg) (h : BufInv st) : BufInv (scanStep b bd f st m) := by
  obtain ⟨h1, h2⟩ := h
  unfold scanStep
  split
  · refine periodicFlush_bufInv f _ ?_ ?_
    · have := route_bulk_le bd st m
      omega
    · rw [route_calls]
      exact h2
  · exact ⟨h1, h2⟩

theorem chunksOf99Go_le :
    ∀ (fuel : Nat) (l : List Msg), ∀ c ∈ chunksOf99Go fuel l, c.length ≤ 99
  | _, [] => by intro c hc; simp [chunksOf99Go] at hc
  | 0, _ :: _ => by intro c hc; simp [chunksOf99Go] at hc
  | fuel + 1, x :: xs => by
      intro c hc
      simp only [chunksOf99Go, List.mem_cons] at hc
      rcases hc with rfl | hc
      · simp only [List.length_take]
        omega
      · exact chunksOf99Go_le fuel _ c hc

theorem chunksOf99_le (l : List Msg) : ∀ c ∈ chunksOf99 l, c.length ≤ 99 :=
  chunksOf99Go_le l.length l

theorem finalFlushChunk_sizes (f : Nat → BatchOutcome) (st : ScanState) (c : List Msg)
    (hc99 : c.length ≤ 99) (h : ∀ s ∈ batchSizes st.calls, s ≤ 99) :
    (∀ s ∈ batchSizes (finalFlushChunk f st c).calls, s ≤ 99)
    ∧ (finalFlushChunk f st c).bulk = st.bulk := by
  unfold finalFlushChunk
  cases f st.batchIdx <;>
    refine ⟨?_, rfl⟩ <;>
    · intro s hs
      rw [batchSizes_append_batch] at hs
      rcases List.mem_append.mp hs with hh | hh
      · exact h s hh
      · rw [List.mem_singleton] at hh
        subst hh
        simpa using hc99

theorem finalFlushFold_sizes (f : Nat → BatchOutcome) :
    ∀ (chs : List (List Msg)) (st : ScanState),
      (∀ c ∈ chs, c.length ≤ 99) → (∀ s ∈ batchSizes st.calls, s ≤ 99) →
      (∀ s ∈ batchSizes (chs.foldl (finalFlushChunk f) st).calls, s ≤ 99)
      ∧ (chs.foldl (finalFlushChunk f) st).bulk = st.bulk
  | [], _, _, hc => ⟨hc, rfl⟩
  | c :: chs, st, hch, hc => by
      rw [List.foldl_cons]
      obtain ⟨ha, hb⟩ := finalFlushChunk_sizes f st c (hch c (by simp)) hc
      obtain ⟨h1, h2⟩ := finalFlushFold_sizes f chs (finalFlushChunk f st c)
        (fun d hd => hch d (by simp [hd])) ha
      exact ⟨h1, by rw [h2, hb]⟩

theorem finalFlush_bufInv (f : Nat → BatchOutcome) (st : ScanState)
    (h : ∀ s ∈ batchSizes st.calls, s ≤ 99) : BufInv (finalFlush f st) := by
  unfold finalFlush
  obtain ⟨h1, h2⟩ := finalFlushFold_sizes f (chunksOf99 st.bulk) { st with bulk := [] }
    (chunksOf99_le st.bulk) h
  refine ⟨?_, h1⟩
  rw [h2]
  simp

theorem singleStep_sizes (g : Nat → SingleOutcome) (st : ScanState) (m : Msg)
    (h : ∀ s ∈ batchSizes st.calls, s ≤ 99) :
    (∀ s ∈ batchSizes (singleStep g st m).calls, s ≤ 99)
    ∧ (singleStep g st m).bulk = st.bulk := by
  unfold singleStep
  cases g st.singleIdx <;>
    refine ⟨?_, rfl⟩ <;>
    · intro s hs
      rw [batchSizes_append_single] at hs
      exact h s hs

theorem singleFold_sizes (g : Nat → SingleOutcome) :
    ∀ (msgs : List Msg) (st : ScanState),
      (∀ s ∈ batchSizes st.calls, s ≤ 99) →
      (∀ s ∈ batchSizes (msgs.foldl (singleStep g) st).calls, s ≤ 99)
      ∧ (msgs.foldl (singleStep g) st).bulk = st.bulk
  | [], _, hc => ⟨hc, rfl⟩
  | m :: msgs, st, hc => by
      rw [List.foldl_cons]
      obtain ⟨ha, hb⟩ := singleStep_sizes g st m hc
      obtain ⟨h1, h2⟩ := singleFold_sizes g msgs (singleStep g st m) ha
      exact ⟨h1, by rw [h2, hb]⟩

theorem scanFold_bufInv (b : Nat) (bd : Instant) (f : Nat → BatchOutcome)
    (l : List Msg) (gd gf : Nat) :
    BufInv (l.foldl (scanStep b bd f) (initState gd gf)) :=
  foldl_preserve BufInv (scanStep b bd f)
    (fun st m h => scanStep_bufInv b bd f st m h) l _
    ⟨by simp [initState], by intro s hs; simp [batchSizes, initState] at hs⟩

theorem processChannel_sizes (b : Nat) (bd : Instant) (gd gf : Nat) (env : ChannelEnv) :
    ∀ s ∈ batchSizes (processChannel b bd gd gf env).1.calls, s ≤ 99 := by
  unfold processChannel
  by_cases hp : (env.canReadHistory && env.canManageMessages) = true
  · rw [if_pos hp]
    have hbody : ∀ s ∈ batchSizes (runChannelBody b bd env gd gf).calls, s ≤ 99 := by
      unfold runChannelBody singlePhase
      have hscan := scanFold_bufInv b bd env.batchOutcome (env.history.take 5000) gd gf
      have hfin := finalFlush_bufInv env.batchOutcome _ hscan.2
      have hsingle := singleFold_sizes env.singleOutcome
        (finalFlush env.batchOutcome
          ((env.history.take 5000).foldl (scanStep b bd env.batchOutcome)
            (initState gd gf))).single
        { finalFlush env.batchOutcome
            ((env.history.take 5000).foldl (scanStep b bd env.batchOutcome)
              (initState gd gf)) with single := [] } hfin.2
      exact hsingle.1
    split
    all_goals dsimp only
    all_goals try split
    · exact (scanFold_bufInv b bd env.batchOutcome _ gd gf).2
    · exact hbody
    · exact hbody
  · rw [if_neg hp]
    intro s hs
    simp [batchSizes] at hs

/-- C4: the batch buffer respects its 99-message capacity at every
point: a scan step keeps the buffer strictly below 99 (the momentary
99th append is flushed within the same step), a buffer that has reached
capacity is batch-deleted and cleared by the flush, the leftover buffer
is split into chunks of at most 99, and consequently every batch-delete
call a channel ever issues carries at most 99 messages. -/
theorem C4_buffer_capacity :
    (∀ (b : Nat) (bd : Instant) (f : Nat → BatchOutcome) (st : ScanState) (m : Msg),
        st.bulk.length < 99 → (scanStep b bd f st m).bulk.length < 99)
    ∧ (∀ (f : Nat → BatchOutcome) (st : ScanState),
        99 ≤ st.bulk.length →
        (periodicFlush f st).bulk = []
        ∧ (periodicFlush f st).calls
            = st.calls ++ [ApiCall.batchDelete (st.bulk.map Msg.id)])
    ∧ (∀ l : List Msg, ∀ c ∈ chunksOf99 l, c.length ≤ 99)
    ∧ ∀ (b : Nat) (bd : Instant) (gd gf : Nat) (env : ChannelEnv),
        ∀ s ∈ batchSizes (processChannel b bd gd gf env).1.calls, s ≤ 99 := by
  refine ⟨?_, ?_, chunksOf99_le, processChannel_sizes⟩
  · intro b bd f st m h
    exact scanStep_bulk_lt b bd f st m h
  · intro f st h
    unfold periodicFlush
    rw [if_pos h]
    constructor
    · split <;> rfl
    · split <;> rfl

theorem C4_witness :
    (scanStep 7 (fourteenDaysAgo 0) (fun _ => BatchOutcome.ok) (initState 0 0)
        { id := 0, authorId := 7, createdAt := -3600 }).bulk.length < 99
    ∧ (periodicFlush (fun _ => BatchOutcome.ok) fullBulkState).bulk = [] :=
  ⟨C4_buffer_capacity.1 7 (fourteenDaysAgo 0) (fun _ => BatchOutcome.ok) (initState 0 0)
      { id := 0, authorId := 7, createdAt := -3600 } (by decide),
   (C4_buffer_capacity.2.1 (fun _ => BatchOutcome.ok) fullBulkState (by decide)).1⟩

theorem pending_route (bd : Instant) (st : ScanState) (m : Msg) :
    pending (route bd st m) = pending st + 1 := by
  unfold route pending
  cases classify m.createdAt bd <;> (simp; omega)

theorem pending_periodicFlush (f : Nat → BatchOutcome) (st : ScanState) :
    pending (periodicFlush f st) = pending st := by
  unfold periodicFlush pending
  split
  · cases f st.batchIdx <;> (simp; omega)
  · rfl

theorem pending_scanStep (b : Nat) (bd : Instant) (f : Nat → BatchOutcome)
    (st : ScanState) (m : Msg) :
    pending (scanStep b bd f st m) = pending st + (if m.authorId = b then 1 else 0) := by
  unfold scanStep
  split
  · rw [pending_periodicFlush, pending_route]
  · omega

theorem pending_scanFold (b : Nat) (bd : Instant) (f : Nat → BatchOutcome) :
    ∀ (l : List Msg) (st : ScanState),
      pending (l.foldl (scanStep b bd f) st)
        = pending st + l.countP (fun m => m.authorId == b)
  | [], _ => by simp
  | m :: l, st => by
      rw [List.foldl_cons, pending_scanFold b bd f l, pending_scanStep,
        List.countP_cons]
      by_cases h : m.authorId = b
      · simp only [h, if_true, beq_self_eq_true, if_pos]
        omega
      · have hb : (m.authorId == b) = false := by simp [h]
        simp only [h, hb, Bool.false_eq_true, if_false]
        omega

theorem pending_finalFlushChunk (f : Nat → BatchOutcome) (st : ScanState) (c : List Msg) :
    pending (finalFlushChunk f st c) = pending st + c.length := by
  unfold finalFlushChunk pending
  cases f st.batchIdx <;> (simp; omega)

theorem pending_finalFlushFold (f : Nat → BatchOutcome) :
    ∀ (chs : List (List Msg)) (st : ScanState),
      pending (chs.foldl (finalFlushChunk f) st) = pending st + (chs.map List.length).sum
  | [], _ => by simp
  | c :: chs, st => by
      rw [List.foldl_cons, pending_finalFlushFold f chs, pending_finalFlushChunk,
        List.map_cons, List.sum_cons]
      omega

theorem chunksOf99Go_sum :
    ∀ (fuel : Nat) (l : List Msg), l.length ≤ fuel →
      ((chunksOf99Go fuel l).map List.length).sum = l.length
  | _, [], _ => by simp [chunksOf99Go]
  | 0, x :: xs, h => by simp at h
  | fuel + 1, x :: xs, h => by
      have hdrop : ((x :: xs).drop 99).length ≤ fuel := by
        simp only [List.length_drop, List.length_cons] at h ⊢
        omega
      rw [show chunksOf99Go (fuel + 1) (x :: xs)
          = (x :: xs).take 99 :: chunksOf99Go fuel ((x :: xs).drop 99) from rfl]
      rw [List.map_cons, List.sum_cons, chunksOf99Go_sum fuel _ hdrop]
      simp only [List.length_take, List.length_drop]
      omega

theorem chunksOf99_sum (l : List Msg) :
    ((chunksOf99 l).map List.length).sum = l.length :=
  chunksOf99Go_sum l.length l le_rfl

theorem pending_finalFlush (f : Nat → BatchOutcome) (st : ScanState) :
    pending (finalFlush f st) = pending st := by
  unfold finalFlush
  rw [pending_finalFlushFold, chunksOf99_sum]
  unfold pending
  simp
  omega

theorem pending_singleStep (g : Nat → SingleOutcome) (st : ScanState) (m : Msg) :
    pending (singleStep g st m) ≤ pending st + 1 := by
  unfold singleStep pending
  cases g st.singleIdx <;> (simp; try omega)

theorem pending_singleFold (g : Nat → SingleOutcome) :
    ∀ (msgs : List Msg) (st : ScanState),
      pending (msgs.foldl (singleStep g) st) ≤ pending st + msgs.length
  | [], _ => by simp
  | m :: msgs, st => by
      rw [List.foldl_cons]
      have h1 := pending_singleFold g msgs (singleStep g st m)
      have h2 := pending_singleStep g st m
      simp only [List.length_cons]
      omega

theorem pending_singlePhase (g : Nat → SingleOutcome) (st : ScanState) :
    pending (singlePhase g st) ≤ pending st := by
  unfold singlePhase
  have h1 := pending_singleFold g st.single { st with single := [] }
  have h2 : pending { st with single := [] } + st.single.length = pending st := by
    unfold pending
    simp
  omega

/-- C10: across one channel, every inspected bot message contributes at
most once to deletedCount + failedCount: the two counters never exceed
the number of inspected bot-authored messages, and at batch-to-single
re-route time (a failed mid-scan flush, or a transient error on a final
flush chunk) no counter is incremented. -/
theorem C10_no_double_count (b : Nat) (bd : Instant) (gd gf : Nat) (env : ChannelEnv) :
    ((processChannel b bd gd gf env).1.deletedCount
        + (processChannel b bd gd gf env).1.failedCount
      ≤ (env.history.take 5000).countP (fun m => m.authorId == b))
    ∧ (∀ (f : Nat → BatchOutcome) (st : ScanState),
        f st.batchIdx ≠ BatchOutcome.ok →
        (periodicFlush f st).chDeleted = st.chDeleted
        ∧ (periodicFlush f st).chFailed = st.chFailed
        ∧ (periodicFlush f st).gDeleted = st.gDeleted
        ∧ (periodicFlush f st).gFailed = st.gFailed)
    ∧ ∀ (f : Nat → BatchOutcome) (st : ScanState) (c : List Msg),
        f st.batchIdx = BatchOutcome.httpException ∨ f st.batchIdx = BatchOutcome.otherError →
        (finalFlushChunk f st c).chDeleted = st.chDeleted
        ∧ (finalFlushChunk f st c).chFailed = st.chFailed := by
  refine ⟨?_, ?_, ?_⟩
  · have hpend : ∀ st : ScanState, st.chDeleted + st.chFailed ≤ pending st := by
      intro st
      unfold pending
      omega
    have hinit : pending (initState gd gf) = 0 := rfl
    have hbody : (runChannelBody b bd env gd gf).chDeleted
          + (runChannelBody b bd env gd gf).chFailed
        ≤ (env.history.take 5000).countP (fun m => m.authorId == b) := by
      have h1 := pending_singlePhase env.singleOutcome
        (finalFlush env.batchOutcome
          ((env.history.take 5000).foldl (scanStep b bd env.batchOutcome)
            (initState gd gf)))
      have h2 := pending_finalFlush env.batchOutcome
        ((env.history.take 5000).foldl (scanStep b bd env.batchOutcome)
          (initState gd gf))
      have h3 := pending_scanFold b bd env.batchOutcome (env.history.take 5000)
        (initState gd gf)
      have h4 := hpend (runChannelBody b bd env gd gf)
      unfold runChannelBody at h4 ⊢
      omega
    unfold processChannel
    by_cases hp : (env.canReadHistory && env.canManageMessages) = true
    · rw [if_pos hp]
      split
      · rename_i a heq
        dsimp only
        split
        · have h3 := pending_scanFold b bd env.batchOutcome
            ((env.history.take 5000).take a.afterMessages) (initState gd gf)
          have h4 := hpend (((env.history.take 5000).take a.afterMessages).foldl
            (scanStep b bd env.batchOutcome) (initState gd gf))
          have h5 := List.Sublist.countP_le (fun m => m.authorId == b)
            (List.take_sublist a.afterMessages (env.history.take 5000))
          dsimp only [resultOf]
          omega
        · exact hbody
      · exact hbody
    · rw [if_neg hp]
      simp
  · intro f st hne
    unfold periodicFlush
    split
    · cases hx : f st.batchIdx
      · exact absurd hx hne
      all_goals exact ⟨rfl, rfl, rfl, rfl⟩
    · exact ⟨rfl, rfl, rfl, rfl⟩
  · intro f st c h
    unfold finalFlushChunk
    rcases h with h | h <;> rw [h] <;> exact ⟨rfl, rfl⟩

theorem C10_witness :
    (processChannel 7 (fourteenDaysAgo 0) 0 0 scenario150).1.deletedCount
        + (processChannel 7 (fourteenDaysAgo 0) 0 0 scenario150).1.failedCount
      ≤ (scenario150.history.take 5000).countP (fun m => m.authorId == 7)
    ∧ (periodicFlush (fun _ => BatchOutcome.httpException) fullBulkState).chDeleted
        = fullBulkState.chDeleted :=
  ⟨(C10_no_double_count 7 (fourteenDaysAgo 0) 0 0 scenario150).1,
   ((C10_no_double_count 7 (fourteenDaysAgo 0) 0 0 scenario150).2.1
      (fun _ => BatchOutcome.httpException) fullBulkState (by decide)).1⟩

theorem C1_witness :
    classify 0 (fourteenDaysAgo 0) = Band.recent
    ∧ classify ((0 : Int) - fourteenDays) (fourteenDaysAgo 0) = Band.aged :=
  ⟨((C1_classification 0).1 0).mpr (by decide), (C1_classification 0).2.1⟩

theorem C3_witness :
    (deletePings abortSession).totalDeleted + (deletePings abortSession).totalFailed
      = (((deletePings abortSession).results.map
          fun r => r.deletedCount + r.failedCount)).sum :=
  (C3_counter_coupling abortSession).1

end AtSomeone
